import Mathlib

/-
Verification of the thread-safe publish/subscribe core (`stel::Event` and
`stel::EventBus`).

The C++ code keeps, per channel, an immutable snapshot of subscriber slots
(a vector of pairs `(id, callback)`) that is replaced wholesale under a
mutator lock, plus a monotonically increasing id counter `next_id_`.  Since
every operation observes and installs whole snapshots atomically, the
sequential state of one channel is fully described by the pair
`(slots_, next_id_)`, which is what the embedding below models.  Callbacks
return `void` in C++ but may throw; they are modelled as functions into
`Except E Unit`, where `Except.error` stands for a thrown exception.
`publish` is modelled as returning, besides the (unchanged) channel, the
trace of callback invocations it performs: one `(id, outcome)` pair per slot
of the snapshot, in snapshot order.  The `try/catch` in the C++ loop
swallows the outcome and continues, which is reflected in the trace
recursion not depending on the outcome of earlier invocations.
-/

namespace Stel

/-- Outcome-typed subscriber callback: `Except.error e` models the callback
throwing exception `e`, `Except.ok ()` a normal return. -/
abbrev Callback (A E : Type) := A → Except E Unit

/-- Sequential state of one `stel::Event<Ts...>` channel: the current
subscriber snapshot `slots_` (insertion-ordered `(id, callback)` pairs, as in
the C++ `SlotVec`) and the id counter `next_id_`. -/
structure Event (A E : Type) where
  slots_ : List (Nat × Callback A E)
  next_id_ : Nat

variable {A E : Type}

/-- The `Event` constructor: empty slot vector, `next_id_` starts at 1. -/
def Event.init : Event A E :=
  { slots_ := [], next_id_ := 1 }

/-- Body of `Event::subscribe`: fetch-and-add on `next_id_` yields the new
id, and the copy-on-write update appends `(id, cb)` at the end of a copy of
the current snapshot.  Returns the new state and the allocated id. -/
def Event.subscribe (ev : Event A E) (cb : Callback A E) : Event A E × Nat :=
  let id := ev.next_id_
  ({ slots_ := ev.slots_ ++ [(id, cb)], next_id_ := ev.next_id_ + 1 }, id)

/-- The rebuild loop of `Event::unsubscribe`: walks the current snapshot,
keeping every slot whose id differs from `id` (in order) and recording
whether any slot matched. -/
def removeLoop (id : Nat) : List (Nat × Callback A E) → List (Nat × Callback A E) × Bool
  | [] => ([], false)
  | (sid, fn) :: rest =>
    let r := removeLoop id rest
    if sid = id then (r.1, true) else ((sid, fn) :: r.1, r.2)

/-- Body of `Event::unsubscribe`: rebuilds the snapshot without the matching
slots; the new snapshot is only installed when something was removed.
Returns the new state and whether an entry was removed. -/
def Event.unsubscribe (ev : Event A E) (id : Nat) : Event A E × Bool :=
  let r := removeLoop id ev.slots_
  (if r.2 then { ev with slots_ := r.1 } else ev, r.2)

/-- The delivery loop of `Event::publish`: invokes each slot's callback with
the published arguments and records `(id, outcome)`.  The `try { ... }
catch (...) {}` around each invocation means the loop continues regardless
of the outcome, which is why the recursion ignores the head's outcome. -/
def publishLoop (x : A) : List (Nat × Callback A E) → List (Nat × Except E Unit)
  | [] => []
  | (sid, fn) :: rest => (sid, fn x) :: publishLoop x rest

/-- Body of `Event::publish` (a const method): loads the current snapshot
and runs the delivery loop over it.  Returns the unchanged channel state
and the invocation trace. -/
def Event.publish (ev : Event A E) (x : A) : Event A E × List (Nat × Except E Unit) :=
  (ev, publishLoop x ev.slots_)

/-- Body of `Event::subscriber_count` (a const method): size of the current
snapshot.  Returns the unchanged channel state and the count. -/
def Event.subscriber_count (ev : Event A E) : Event A E × Nat :=
  (ev, ev.slots_.length)

/-- Body of `Event::clear`: installs a fresh empty snapshot; `next_id_` is
not touched. -/
def Event.clear (ev : Event A E) : Event A E :=
  { ev with slots_ := [] }

/-- State of a `stel::Event<Ts...>::Subscription` handle: `has_owner`
models whether the `owner_` weak pointer is non-null (it is nulled by
`owner_.reset()` and by moves), and `id_` is the stored subscriber id
(0 for a default-constructed or released handle). -/
structure Subscription where
  has_owner : Bool
  id_ : Nat
deriving DecidableEq, Repr

/-- Result of `owner_.lock()`: the channel, when the handle still points at
it (`has_owner`) and the channel object is still alive (`alive = some ev`);
otherwise null. -/
def Subscription.lock (alive : Option (Event A E)) (s : Subscription) :
    Option (Event A E) :=
  if s.has_owner then alive else none

/-- Body of `Subscription::unsubscribe`, with the owning channel's
existence passed explicitly as `alive` (the referent of the `owner_` weak
pointer, `none` once the channel has been destroyed).  Returns the channel
state after the call, the handle state after the call, the returned bool,
and whether the channel's removal logic (`ev->unsubscribe(id_)`) was
invoked.  Mirrors the C++ exactly: when `lock()` fails or `id_ == 0` it
returns false leaving the handle untouched; otherwise it calls the
channel's unsubscribe, zeroes `id_`, resets `owner_`, and returns the
channel's result. -/
def Subscription.unsubscribe (alive : Option (Event A E)) (s : Subscription) :
    Option (Event A E) × Subscription × Bool × Bool :=
  match Subscription.lock alive s with
  | none => (alive, s, false, false)
  | some ev =>
    if s.id_ = 0 then (alive, s, false, false)
    else
      let r := Event.unsubscribe ev s.id_
      (some r.1, ⟨false, 0⟩, r.2, true)

/-- The handle's `explicit operator bool` (the spec's `is_active`): true
iff the stored id is nonzero. -/
def Subscription.is_active (s : Subscription) : Bool :=
  s.id_ != 0

/-- Variant of `Event.subscribe` that also builds the returned handle, as
`subscribe` does with `Subscription{this->weak_from_this(), id}`: the
handle points at this channel and carries the allocated id. -/
def Event.subscribeS (ev : Event A E) (cb : Callback A E) :
    Event A E × Subscription :=
  let r := Event.subscribe ev cb
  (r.1, ⟨true, r.2⟩)

/-- One mutator/observer call on a channel, used to talk about arbitrary
operation sequences. -/
inductive Op (A E : Type) where
  | sub (cb : Callback A E)
  | unsub (id : Nat)
  | clear
  | pub (x : A)

/-- State after one operation (return values dropped). -/
def Event.step (ev : Event A E) : Op A E → Event A E
  | .sub cb => (Event.subscribe ev cb).1
  | .unsub id => (Event.unsubscribe ev id).1
  | .clear => Event.clear ev
  | .pub x => (Event.publish ev x).1

/-- State after a sequence of operations. -/
def Event.run (ev : Event A E) : List (Op A E) → Event A E
  | [] => ev
  | op :: ops => Event.run (Event.step ev op) ops

/-- The ids handed out by the subscribe calls of an operation sequence, in
call order. -/
def Event.runIds (ev : Event A E) : List (Op A E) → List Nat
  | [] => []
  | .sub cb :: ops =>
      (Event.subscribe ev cb).2 :: Event.runIds (Event.subscribe ev cb).1 ops
  | .unsub id :: ops => Event.runIds (Event.step ev (.unsub id)) ops
  | .clear :: ops => Event.runIds (Event.step ev .clear) ops
  | .pub x :: ops => Event.runIds (Event.step ev (.pub x)) ops

/-- State of a `stel::EventBus<Ts...>`: the topic map, modelled as an
association list keyed by topic string (one entry per topic). -/
structure EventBus (A E : Type) where
  channels_ : List (String × Event A E)

/-- A freshly constructed bus: empty topic map. -/
def EventBus.empty : EventBus A E :=
  { channels_ := [] }

/-- Lookup in the topic map (`channels_.find(topic)`). -/
def findTopic : List (String × Event A E) → String → Option (Event A E)
  | [], _ => none
  | (t, c) :: rest, topic => if t = topic then some c else findTopic rest topic

/-- Lookup on a bus. -/
def EventBus.find (b : EventBus A E) (topic : String) : Option (Event A E) :=
  findTopic b.channels_ topic

/-- Update-or-insert in the topic map, as `channels_[topic] = ch`. -/
def setChannel : List (String × Event A E) → String → Event A E →
    List (String × Event A E)
  | [], topic, ch => [(topic, ch)]
  | (t, c) :: rest, topic, ch =>
    if t = topic then (t, ch) :: rest else (t, c) :: setChannel rest topic ch

/-- Body of `EventBus::subscribe`: `channels_[topic]` creates the channel
on first use (a fresh `Event`, i.e. `Event.init`), then delegates to the
channel's subscribe. -/
def EventBus.subscribe (b : EventBus A E) (topic : String) (cb : Callback A E) :
    EventBus A E × Subscription :=
  let ch := match EventBus.find b topic with
            | some c => c
            | none => Event.init
  let r := Event.subscribeS ch cb
  ({ channels_ := setChannel b.channels_ topic r.1 }, r.2)

/-- Body of `EventBus::publish` (a const method): looks the topic up
without inserting; on a hit, delegates to the channel's publish and
returns its invocation trace, otherwise does nothing. -/
def EventBus.publish (b : EventBus A E) (topic : String) (x : A) :
    EventBus A E × List (Nat × Except E Unit) :=
  match EventBus.find b topic with
  | none => (b, [])
  | some ch => (b, (Event.publish ch x).2)

/-- Body of `EventBus::subsriber_count` (name as in the source): 0 for an
unknown topic, else the channel's count. -/
def EventBus.subsriber_count (b : EventBus A E) (topic : String) : Nat :=
  match EventBus.find b topic with
  | none => 0
  | some ch => (Event.subscriber_count ch).2

/-- One call on a bus, used to talk about arbitrary call sequences. -/
inductive BusOp (A E : Type) where
  | bsub (topic : String) (cb : Callback A E)
  | bpub (topic : String) (x : A)

/-- Bus state after a sequence of calls (return values dropped). -/
def EventBus.runB (b : EventBus A E) : List (BusOp A E) → EventBus A E
  | [] => b
  | .bsub t cb :: ops => EventBus.runB (EventBus.subscribe b t cb).1 ops
  | .bpub t x :: ops => EventBus.runB (EventBus.publish b t x).1 ops

/-! Helper lemmas about the loops. -/

/-- The delivery loop produces exactly one `(id, outcome)` pair per slot,
in slot order. -/
theorem publishLoop_eq_map (x : A) :
    ∀ l : List (Nat × Callback A E),
      publishLoop x l = l.map (fun s => (s.1, s.2 x))
  | [] => rfl
  | (sid, fn) :: rest => by
      simp [publishLoop, publishLoop_eq_map x rest]

/-- The rebuilt snapshot of the unsubscribe loop keeps exactly the slots
whose id differs, in order. -/
theorem removeLoop_fst (id : Nat) :
    ∀ l : List (Nat × Callback A E),
      (removeLoop id l).1 = l.filter (fun s => s.1 ≠ id)
  | [] => rfl
  | (sid, fn) :: rest => by
      by_cases h : sid = id <;>
        simp [removeLoop, h, removeLoop_fst id rest]

/-- The removed flag of the unsubscribe loop is set iff some slot matched. -/
theorem removeLoop_snd (id : Nat) :
    ∀ l : List (Nat × Callback A E),
      (removeLoop id l).2 = l.any (fun s => s.1 = id)
  | [] => rfl
  | (sid, fn) :: rest => by
      by_cases h : sid = id <;>
        simp [removeLoop, h, removeLoop_snd id rest]

/-- Unsubscribing never touches the id counter. -/
theorem unsubscribe_next_id (ev : Event A E) (id : Nat) :
    (Event.unsubscribe ev id).1.next_id_ = ev.next_id_ := by
  by_cases h : (removeLoop id ev.slots_).2 <;>
    simp [Event.unsubscribe, h]

/-! Claim theorems. -/

/-- C1: publish invokes the callback of every entry in the current
snapshot exactly once, in the snapshot's insertion order, passing the
published arguments to each — the invocation trace is exactly the
snapshot mapped to `(id, callback args)`.  In particular, after
subscribing A then B, `publish x1` invokes A with `x1` and then B with
`x1`, and after unsubscribing A, `publish x2` invokes only B with `x2`. -/
theorem publish_invokes_snapshot_in_order (ev : Event A E) (x : A)
    (cbA cbB : Callback A E) (x1 x2 : A) :
    (Event.publish ev x).2 = ev.slots_.map (fun s => (s.1, s.2 x)) ∧
    (Event.publish (Event.subscribeS (Event.subscribeS Event.init cbA).1 cbB).1 x1).2 =
      [((Event.subscribeS Event.init cbA).2.id_, cbA x1),
       ((Event.subscribeS (Event.subscribeS Event.init cbA).1 cbB).2.id_, cbB x1)] ∧
    (Event.publish
        (Event.unsubscribe (Event.subscribeS (Event.subscribeS Event.init cbA).1 cbB).1
          (Event.subscribeS Event.init cbA).2.id_).1 x2).2 =
      [((Event.subscribeS (Event.subscribeS Event.init cbA).1 cbB).2.id_, cbB x2)] :=
  ⟨publishLoop_eq_map x ev.slots_, rfl, rfl⟩

/-- C10: publish and subscriber_count are const observers — both leave
the subscriber snapshot and the next-id counter exactly as they were,
whatever the callbacks return or throw. -/
theorem publish_and_count_leave_state_unchanged (ev : Event A E) (x : A) :
    (Event.publish ev x).1.slots_ = ev.slots_ ∧
    (Event.publish ev x).1.next_id_ = ev.next_id_ ∧
    (Event.subscriber_count ev).1.slots_ = ev.slots_ ∧
    (Event.subscriber_count ev).1.next_id_ = ev.next_id_ :=
  ⟨rfl, rfl, rfl, rfl⟩

/-- C4: a callback that throws during publish is caught and discarded,
and every later entry of the snapshot is still invoked: whenever slot `i`
throws, the trace still has length equal to the snapshot and still holds,
at every later position `j`, the invocation of slot `j` with the published
arguments.  Publish itself always returns normally (it is a total
function into a plain trace, never an exception). -/
theorem publish_isolates_throwing_callback (ev : Event A E) (x : A)
    (i j idi idj : Nat) (cbi cbj : Callback A E) (e : E)
    (hij : i < j)
    (hsloti : ev.slots_[i]? = some (idi, cbi))
    (hthrow : cbi x = Except.error e)
    (hslotj : ev.slots_[j]? = some (idj, cbj)) :
    (Event.publish ev x).2.length = ev.slots_.length ∧
    (Event.publish ev x).2[j]? = some (idj, cbj x) := by
  have htr : (Event.publish ev x).2 = ev.slots_.map (fun s => (s.1, s.2 x)) :=
    publishLoop_eq_map x ev.slots_
  constructor
  · rw [htr, List.length_map]
  · rw [htr, List.getElem?_map, hslotj]
    rfl

/-- Witness for C4 at a concrete two-slot channel whose first callback
throws: the second callback is still invoked. -/
theorem publish_isolates_throwing_callback_witness :
    (Event.publish (A := Nat) (E := Nat)
        ⟨[(1, fun _ => Except.error 7), (2, fun _ => Except.ok ())], 3⟩ 0).2.length = 2 ∧
    (Event.publish (A := Nat) (E := Nat)
        ⟨[(1, fun _ => Except.error 7), (2, fun _ => Except.ok ())], 3⟩ 0).2[1]? =
      some (2, Except.ok ()) := by
  have h := publish_isolates_throwing_callback (A := Nat) (E := Nat)
      ⟨[(1, fun _ => Except.error 7), (2, fun _ => Except.ok ())], 3⟩ 0 0 1 1 2
      (fun _ => Except.error 7) (fun _ => Except.ok ()) 7
      (by decide) rfl rfl rfl
  exact ⟨h.1, h.2⟩

/-- C2: subscribe always succeeds; it allocates the fresh id held by the
counter (fresh: not present in the current snapshot whenever all snapshot
ids are below the counter, as the code maintains), appends exactly the one
new entry at the end of the snapshot, bumps the counter, and returns a
handle bound to this channel and that id. -/
theorem subscribe_appends_fresh_id (ev : Event A E) (cb : Callback A E)
    (hbound : ∀ s ∈ ev.slots_, s.1 < ev.next_id_) :
    (Event.subscribe ev cb).2 = ev.next_id_ ∧
    (Event.subscribe ev cb).2 ∉ ev.slots_.map Prod.fst ∧
    (Event.subscribe ev cb).1.slots_ = ev.slots_ ++ [((Event.subscribe ev cb).2, cb)] ∧
    (Event.subscribe ev cb).1.next_id_ = ev.next_id_ + 1 ∧
    (Event.subscribeS ev cb).2 = ⟨true, (Event.subscribe ev cb).2⟩ := by
  refine ⟨rfl, ?_, rfl, rfl, rfl⟩
  intro hmem
  rcases List.mem_map.mp hmem with ⟨s, hs, hfst⟩
  have hlt := hbound s hs
  have hid : (Event.subscribe ev cb).2 = ev.next_id_ := rfl
  rw [hid] at hfst
  omega

/-- Witness for C2 on the freshly constructed channel. -/
theorem subscribe_appends_fresh_id_witness :
    (Event.subscribe (Event.init (A := Nat) (E := Nat)) (fun _ => Except.ok ())).2 = 1 ∧
    (Event.subscribe (Event.init (A := Nat) (E := Nat)) (fun _ => Except.ok ())).2 ∉
      (Event.init (A := Nat) (E := Nat)).slots_.map Prod.fst ∧
    (Event.subscribe (Event.init (A := Nat) (E := Nat)) (fun _ => Except.ok ())).1.slots_ =
      [(1, fun _ => Except.ok ())] ∧
    (Event.subscribe (Event.init (A := Nat) (E := Nat)) (fun _ => Except.ok ())).1.next_id_ = 2 ∧
    (Event.subscribeS (Event.init (A := Nat) (E := Nat)) (fun _ => Except.ok ())).2 = ⟨true, 1⟩ :=
  subscribe_appends_fresh_id (Event.init (A := Nat) (E := Nat)) (fun _ => Except.ok ())
    (by intro s hs; simp [Event.init] at hs)

/-- C3: unsubscribe(id) returns true iff an entry with that id is in the
current snapshot; on success the new snapshot is the old one with exactly
that entry removed (the other entries keep their relative order), on
failure the channel is unchanged; the id counter is never touched.  The
snapshot's ids are assumed pairwise distinct, as the code maintains. -/
theorem unsubscribe_removes_exactly_matching_entry (ev : Event A E) (id : Nat)
    (hnd : (ev.slots_.map Prod.fst).Nodup) :
    ((Event.unsubscribe ev id).2 = true ↔ id ∈ ev.slots_.map Prod.fst) ∧
    ((Event.unsubscribe ev id).2 = true →
      ∃ l1 cb l2, ev.slots_ = l1 ++ (id, cb) :: l2 ∧
        (Event.unsubscribe ev id).1.slots_ = l1 ++ l2) ∧
    ((Event.unsubscribe ev id).2 = false → (Event.unsubscribe ev id).1 = ev) ∧
    (Event.unsubscribe ev id).1.next_id_ = ev.next_id_ := by
  have hsnd : (Event.unsubscribe ev id).2 = ev.slots_.any (fun s => s.1 = id) :=
    removeLoop_snd id ev.slots_
  have hiff : (Event.unsubscribe ev id).2 = true ↔ id ∈ ev.slots_.map Prod.fst := by
    rw [hsnd, List.any_eq_true]
    constructor
    · rintro ⟨s, hs, heq⟩
      exact List.mem_map.mpr ⟨s, hs, by simpa using heq⟩
    · intro hmem
      rcases List.mem_map.mp hmem with ⟨s, hs, hfst⟩
      exact ⟨s, hs, by simpa using hfst⟩
  refine ⟨hiff, ?_, ?_, unsubscribe_next_id ev id⟩
  · intro htrue
    have hmem : id ∈ ev.slots_.map Prod.fst := hiff.mp htrue
    rcases List.mem_map.mp hmem with ⟨s, hs, hfst⟩
    obtain ⟨sfst, cb⟩ := s
    simp only at hfst
    subst sfst
    rcases List.append_of_mem hs with ⟨l1, l2, hsplit⟩
    refine ⟨l1, cb, l2, hsplit, ?_⟩
    have hslots : (Event.unsubscribe ev id).1.slots_ =
        ev.slots_.filter (fun s => s.1 ≠ id) := by
      have hfst' : (Event.unsubscribe ev id).1 =
          if (removeLoop id ev.slots_).2 then
            { ev with slots_ := (removeLoop id ev.slots_).1 } else ev := rfl
      have h2 : (removeLoop id ev.slots_).2 = true := htrue
      rw [hfst', h2]
      simpa using removeLoop_fst id ev.slots_
    have hnd' := hnd
    rw [hsplit, List.map_append, List.map_cons, List.nodup_append] at hnd'
    obtain ⟨hnd1, hnd2, hdisj⟩ := hnd'
    have hid_head : id ∈ ((id, cb).1 :: List.map Prod.fst l2) :=
      List.mem_cons_self _ _
    have hnotin1 : id ∉ l1.map Prod.fst := fun hmem1 => hdisj hmem1 hid_head
    have hnotin2 : id ∉ l2.map Prod.fst := by
      rw [List.nodup_cons] at hnd2
      exact hnd2.1
    rw [hslots, hsplit, List.filter_append, List.filter_cons]
    have hsfst : (decide ¬ (id, cb).1 = id) = false := by
      simp
    rw [hsfst]
    have hf1 : l1.filter (fun s => s.1 ≠ id) = l1 := by
      rw [List.filter_eq_self]
      intro a ha
      simp only [decide_eq_true_eq]
      intro hcontra
      exact hnotin1 (List.mem_map.mpr ⟨a, ha, hcontra⟩)
    have hf2 : l2.filter (fun s => s.1 ≠ id) = l2 := by
      rw [List.filter_eq_self]
      intro a ha
      simp only [decide_eq_true_eq]
      intro hcontra
      exact hnotin2 (List.mem_map.mpr ⟨a, ha, hcontra⟩)
    rw [hf1, hf2]
    simp
  · intro hfalse
    have h2 : (removeLoop id ev.slots_).2 = false := hfalse
    simp [Event.unsubscribe, h2]

/-- Witness for C3 on a concrete two-slot channel. -/
theorem unsubscribe_removes_exactly_matching_entry_witness :
    ((Event.unsubscribe (A := Nat) (E := Nat)
        ⟨[(1, fun _ => Except.ok ()), (2, fun _ => Except.ok ())], 3⟩ 1).2 = true ↔
      1 ∈ ([(1, fun _ => Except.ok ()), (2, fun _ => Except.ok ())] :
            List (Nat × Callback Nat Nat)).map Prod.fst) ∧
    ((Event.unsubscribe (A := Nat) (E := Nat)
        ⟨[(1, fun _ => Except.ok ()), (2, fun _ => Except.ok ())], 3⟩ 1).2 = true →
      ∃ l1 cb l2,
        ([(1, fun _ => Except.ok ()), (2, fun _ => Except.ok ())] :
            List (Nat × Callback Nat Nat)) = l1 ++ (1, cb) :: l2 ∧
        (Event.unsubscribe (A := Nat) (E := Nat)
          ⟨[(1, fun _ => Except.ok ()), (2, fun _ => Except.ok ())], 3⟩ 1).1.slots_ = l1 ++ l2) ∧
    ((Event.unsubscribe (A := Nat) (E := Nat)
        ⟨[(1, fun _ => Except.ok ()), (2, fun _ => Except.ok ())], 3⟩ 1).2 = false →
      (Event.unsubscribe (A := Nat) (E := Nat)
        ⟨[(1, fun _ => Except.ok ()), (2, fun _ => Except.ok ())], 3⟩ 1).1 =
        ⟨[(1, fun _ => Except.ok ()), (2, fun _ => Except.ok ())], 3⟩) ∧
    (Event.unsubscribe (A := Nat) (E := Nat)
        ⟨[(1, fun _ => Except.ok ()), (2, fun _ => Except.ok ())], 3⟩ 1).1.next_id_ = 3 :=
  unsubscribe_removes_exactly_matching_entry
    ⟨[(1, fun _ => Except.ok ()), (2, fun _ => Except.ok ())], 3⟩ 1 (by simp)

/-- Every issued id is at least the starting counter value, and the issued
ids of a run are pairwise distinct.  This is the inductive core of the
id-uniqueness invariant: subscribe issues the counter value and bumps the
counter, while unsubscribe, clear and publish never touch the counter. -/
theorem runIds_lb_nodup :
    ∀ (ops : List (Op A E)) (ev : Event A E),
      (∀ i ∈ Event.runIds ev ops, ev.next_id_ ≤ i) ∧ (Event.runIds ev ops).Nodup
  | [], ev => by simp [Event.runIds]
  | .sub cb :: ops, ev => by
      have ih := runIds_lb_nodup ops (Event.subscribe ev cb).1
      have hnext : (Event.subscribe ev cb).1.next_id_ = ev.next_id_ + 1 := rfl
      constructor
      · intro i hi
        rw [Event.runIds] at hi
        rcases List.mem_cons.mp hi with h | h
        · rw [h]
          exact Nat.le_refl _
        · have := ih.1 i h
          omega
      · rw [Event.runIds, List.nodup_cons]
        refine ⟨?_, ih.2⟩
        intro hmem
        have := ih.1 _ hmem
        rw [hnext] at this
        have hval : (Event.subscribe ev cb).2 = ev.next_id_ := rfl
        omega
  | .unsub id :: ops, ev => by
      have ih := runIds_lb_nodup ops (Event.step ev (.unsub id))
      have hnext : (Event.step ev (.unsub id)).next_id_ = ev.next_id_ :=
        unsubscribe_next_id ev id
      rw [Event.runIds]
      exact ⟨fun i hi => hnext ▸ ih.1 i hi, ih.2⟩
  | .clear :: ops, ev => by
      have ih := runIds_lb_nodup ops (Event.step ev .clear)
      rw [Event.runIds]
      exact ⟨fun i hi => ih.1 i hi, ih.2⟩
  | .pub x :: ops, ev => by
      have ih := runIds_lb_nodup ops (Event.step ev (.pub x))
      rw [Event.runIds]
      exact ⟨fun i hi => ih.1 i hi, ih.2⟩

/-- C5: over any sequence of subscribe, unsubscribe, clear (and publish)
calls on a channel constructed fresh, the ids handed out by the subscribe
calls are pairwise distinct — an id is never reissued, also after the
entry bearing it was removed by unsubscribe or clear, because only
subscribe's fetch-and-add ever touches the monotone counter. -/
theorem subscribe_ids_never_reused (ops : List (Op A E)) :
    (Event.runIds Event.init ops).Nodup :=
  (runIds_lb_nodup ops Event.init).2

/-- C6 counterexample: a live handle (id 5) whose owning channel has been
destroyed.  `unsubscribe()` does return false, but the early return
`if (!ev || id_ == 0) return false;` skips `id_ = 0`, so the handle is not
marked inert: `operator bool` (is_active) still reports true, contradicting
the claim that a subsequent is_active reports false. -/
theorem dead_channel_handle_stays_active_counterexample :
    (Subscription.unsubscribe (A := Nat) (E := Nat) none ⟨true, 5⟩).2.2.1 = false ∧
    ¬ (Subscription.unsubscribe (A := Nat) (E := Nat) none ⟨true, 5⟩).2.1.is_active = false :=
  ⟨rfl, by decide⟩

/-- C6 (amended): for every Subscription whose owning Channel no longer
exists, `unsubscribe()` returns false without invoking any removal logic,
and leaves the handle exactly as it was — in particular it does not mark
it inert, so a handle whose stored id is nonzero still reports active. -/
theorem dead_channel_unsubscribe_returns_false_handle_unchanged
    (s : Subscription) :
    Subscription.unsubscribe (A := A) (E := E) none s = (none, s, false, false) := by
  cases h : s.has_owner <;>
    simp [Subscription.unsubscribe, Subscription.lock, h]

/-- C7: on a live handle (owner alive, id nonzero) the first
`unsubscribe()` invokes the channel's removal logic exactly once,
installing the channel state and returning the result of the channel's
`unsubscribe(id)`, and marks the handle inert; the second call on the
resulting handle returns false, changes nothing, and does not invoke the
channel's removal logic again. -/
theorem subscription_release_exactly_once (ev : Event A E) (s : Subscription)
    (hown : s.has_owner = true) (hid : s.id_ ≠ 0) :
    (Subscription.unsubscribe (some ev) s).2.2.2 = true ∧
    (Subscription.unsubscribe (some ev) s).1 = some (Event.unsubscribe ev s.id_).1 ∧
    (Subscription.unsubscribe (some ev) s).2.2.1 = (Event.unsubscribe ev s.id_).2 ∧
    (Subscription.unsubscribe (some ev) s).2.1 = ⟨false, 0⟩ ∧
    Subscription.unsubscribe (Subscription.unsubscribe (some ev) s).1
        (Subscription.unsubscribe (some ev) s).2.1 =
      ((Subscription.unsubscribe (some ev) s).1, ⟨false, 0⟩, false, false) := by
  have hstep : Subscription.unsubscribe (some ev) s =
      (some (Event.unsubscribe ev s.id_).1, ⟨false, 0⟩,
        (Event.unsubscribe ev s.id_).2, true) := by
    simp [Subscription.unsubscribe, Subscription.lock, hown, hid]
  rw [hstep]
  refine ⟨rfl, rfl, rfl, rfl, ?_⟩
  simp [Subscription.unsubscribe, Subscription.lock]

/-- Witness for C7 on a one-slot channel and the handle returned for it:
the first release removes the entry and reports true, the second is a
no-op reporting false. -/
theorem subscription_release_exactly_once_witness :
    (Subscription.unsubscribe (A := Nat) (E := Nat)
        (some ⟨[(1, fun _ => Except.ok ())], 2⟩) ⟨true, 1⟩).2.2.2 = true ∧
    (Subscription.unsubscribe (A := Nat) (E := Nat)
        (some ⟨[(1, fun _ => Except.ok ())], 2⟩) ⟨true, 1⟩).1 =
      some (Event.unsubscribe (A := Nat) (E := Nat)
        ⟨[(1, fun _ => Except.ok ())], 2⟩ 1).1 ∧
    (Subscription.unsubscribe (A := Nat) (E := Nat)
        (some ⟨[(1, fun _ => Except.ok ())], 2⟩) ⟨true, 1⟩).2.2.1 =
      (Event.unsubscribe (A := Nat) (E := Nat)
        ⟨[(1, fun _ => Except.ok ())], 2⟩ 1).2 ∧
    (Subscription.unsubscribe (A := Nat) (E := Nat)
        (some ⟨[(1, fun _ => Except.ok ())], 2⟩) ⟨true, 1⟩).2.1 = ⟨false, 0⟩ ∧
    Subscription.unsubscribe
        (Subscription.unsubscribe (A := Nat) (E := Nat)
          (some ⟨[(1, fun _ => Except.ok ())], 2⟩) ⟨true, 1⟩).1
        (Subscription.unsubscribe (A := Nat) (E := Nat)
          (some ⟨[(1, fun _ => Except.ok ())], 2⟩) ⟨true, 1⟩).2.1 =
      ((Subscription.unsubscribe (A := Nat) (E := Nat)
          (some ⟨[(1, fun _ => Except.ok ())], 2⟩) ⟨true, 1⟩).1,
        ⟨false, 0⟩, false, false) :=
  subscription_release_exactly_once
    ⟨[(1, fun _ => Except.ok ())], 2⟩ ⟨true, 1⟩ rfl (by decide)

/-- A lower bound on all slot ids and on the counter is preserved by every
operation: subscribe only adds the counter value, unsubscribe only keeps
existing slots, clear empties the snapshot, publish changes nothing. -/
theorem run_slots_lb (n : Nat) :
    ∀ (ops : List (Op A E)) (ev : Event A E),
      (∀ s ∈ ev.slots_, n ≤ s.1) → n ≤ ev.next_id_ →
      (∀ s ∈ (Event.run ev ops).slots_, n ≤ s.1) ∧ n ≤ (Event.run ev ops).next_id_
  | [], ev => fun hs hn => ⟨hs, hn⟩
  | .sub cb :: ops, ev => fun hs hn => by
      rw [Event.run]
      refine run_slots_lb n ops _ ?_ ?_
      · intro s hmem
        rcases List.mem_append.mp hmem with h | h
        · exact hs s h
        · have : s = (ev.next_id_, cb) := List.mem_singleton.mp h
          rw [this]
          exact hn
      · have : (Event.step ev (.sub cb)).next_id_ = ev.next_id_ + 1 := rfl
        omega
  | .unsub id :: ops, ev => fun hs hn => by
      rw [Event.run]
      refine run_slots_lb n ops _ ?_ ?_
      · intro s hmem
        have hslots : (Event.step ev (.unsub id)).slots_ = ev.slots_ ∨
            (Event.step ev (.unsub id)).slots_ =
              ev.slots_.filter (fun s => s.1 ≠ id) := by
          by_cases h2 : (removeLoop id ev.slots_).2
          · right
            have : (Event.step ev (.unsub id)).slots_ = (removeLoop id ev.slots_).1 := by
              simp [Event.step, Event.unsubscribe, h2]
            rw [this]
            exact removeLoop_fst id ev.slots_
          · left
            simp [Event.step, Event.unsubscribe, h2]
        rcases hslots with h | h
        · exact hs s (h ▸ hmem)
        · rw [h] at hmem
          exact hs s (List.mem_of_mem_filter hmem)
      · have : (Event.step ev (.unsub id)).next_id_ = ev.next_id_ :=
          unsubscribe_next_id ev id
        omega
  | .clear :: ops, ev => fun hs hn => by
      rw [Event.run]
      refine run_slots_lb n ops _ ?_ ?_
      · intro s hmem
        simp [Event.step, Event.clear] at hmem
      · exact hn
  | .pub x :: ops, ev => fun hs hn => by
      rw [Event.run]
      exact run_slots_lb n ops _ hs hn

/-- C8: clear installs an empty snapshot, so subscriber_count is 0 right
after, and leaves the id counter alone; for any id that was in the cleared
snapshot (snapshot ids sit below the counter, as the code maintains) and
any later sequence of operations, unsubscribe(id) returns false and leaves
the channel unchanged, and the previously issued handle for that id is
still usable: its release call runs the channel's removal logic, gets
false back, and just marks the handle inert. -/
theorem clear_empties_and_old_ids_stay_dead (ev : Event A E) (id : Nat)
    (ops : List (Op A E))
    (hbound : ∀ s ∈ ev.slots_, s.1 < ev.next_id_)
    (hmem : id ∈ ev.slots_.map Prod.fst)
    (hpos : id ≠ 0) :
    (Event.subscriber_count (Event.clear ev)).2 = 0 ∧
    (Event.clear ev).next_id_ = ev.next_id_ ∧
    (Event.unsubscribe (Event.run (Event.clear ev) ops) id).2 = false ∧
    (Event.unsubscribe (Event.run (Event.clear ev) ops) id).1 =
      Event.run (Event.clear ev) ops ∧
    Subscription.unsubscribe (some (Event.run (Event.clear ev) ops)) ⟨true, id⟩ =
      (some (Event.run (Event.clear ev) ops), ⟨false, 0⟩, false, true) := by
  have hlt : id < ev.next_id_ := by
    rcases List.mem_map.mp hmem with ⟨s, hs, hfst⟩
    have := hbound s hs
    omega
  have hlb := run_slots_lb ev.next_id_ ops (Event.clear ev)
    (by intro s hmem'; simp [Event.clear] at hmem') (Nat.le_refl _)
  have hnomatch : ∀ s ∈ (Event.run (Event.clear ev) ops).slots_, s.1 ≠ id := by
    intro s hmem'
    have := hlb.1 s hmem'
    omega
  have hfalse : (Event.unsubscribe (Event.run (Event.clear ev) ops) id).2 = false := by
    have hsnd : (Event.unsubscribe (Event.run (Event.clear ev) ops) id).2 =
        (Event.run (Event.clear ev) ops).slots_.any (fun s => s.1 = id) :=
      removeLoop_snd id _
    rw [hsnd, List.any_eq_false]
    intro s hs
    simp only [decide_eq_true_eq]
    exact hnomatch s hs
  have hsame : (Event.unsubscribe (Event.run (Event.clear ev) ops) id).1 =
      Event.run (Event.clear ev) ops := by
    have h2 : (removeLoop id (Event.run (Event.clear ev) ops).slots_).2 = false := hfalse
    simp [Event.unsubscribe, h2]
  refine ⟨rfl, rfl, hfalse, hsame, ?_⟩
  have hfinal : Subscription.unsubscribe
      (some (Event.run (Event.clear ev) ops)) ⟨true, id⟩ =
      (some (Event.unsubscribe (Event.run (Event.clear ev) ops) id).1, ⟨false, 0⟩,
        (Event.unsubscribe (Event.run (Event.clear ev) ops) id).2, true) := by
    simp [Subscription.unsubscribe, Subscription.lock, hpos]
  rw [hfinal, hsame, hfalse]

/-- Witness for C8: clear a one-slot channel, subscribe someone new, then
try to remove the old id 1. -/
theorem clear_empties_and_old_ids_stay_dead_witness :
    (Event.subscriber_count (Event.clear (A := Nat) (E := Nat)
        ⟨[(1, fun _ => Except.ok ())], 2⟩)).2 = 0 ∧
    (Event.clear (A := Nat) (E := Nat)
        ⟨[(1, fun _ => Except.ok ())], 2⟩).next_id_ = 2 ∧
    (Event.unsubscribe (Event.run (Event.clear (A := Nat) (E := Nat)
        ⟨[(1, fun _ => Except.ok ())], 2⟩) [Op.sub (fun _ => Except.ok ())]) 1).2 = false ∧
    (Event.unsubscribe (Event.run (Event.clear (A := Nat) (E := Nat)
        ⟨[(1, fun _ => Except.ok ())], 2⟩) [Op.sub (fun _ => Except.ok ())]) 1).1 =
      Event.run (Event.clear (A := Nat) (E := Nat)
        ⟨[(1, fun _ => Except.ok ())], 2⟩) [Op.sub (fun _ => Except.ok ())] ∧
    Subscription.unsubscribe
        (some (Event.run (Event.clear (A := Nat) (E := Nat)
          ⟨[(1, fun _ => Except.ok ())], 2⟩) [Op.sub (fun _ => Except.ok ())])) ⟨true, 1⟩ =
      (some (Event.run (Event.clear (A := Nat) (E := Nat)
          ⟨[(1, fun _ => Except.ok ())], 2⟩) [Op.sub (fun _ => Except.ok ())]),
        ⟨false, 0⟩, false, true) :=
  clear_empties_and_old_ids_stay_dead
    ⟨[(1, fun _ => Except.ok ())], 2⟩ 1 [Op.sub (fun _ => Except.ok ())]
    (by simp) (by simp) (by decide)

/-- Updating one topic's channel does not disturb the lookup of another
topic. -/
theorem findTopic_setChannel_ne (topic t : String) (ch : Event A E)
    (hne : t ≠ topic) :
    ∀ l : List (String × Event A E),
      findTopic (setChannel l t ch) topic = findTopic l topic
  | [] => by simp [setChannel, findTopic, hne]
  | (t', c) :: rest => by
      by_cases h : t' = t
      · subst h
        simp [setChannel, findTopic, hne]
      · simp only [setChannel, h, if_false]
        by_cases h2 : t' = topic <;>
          simp [findTopic, h2, findTopic_setChannel_ne topic t ch hne rest]

/-- Bus publish is a const method: it never changes the topic map. -/
theorem bus_publish_fst (b : EventBus A E) (t : String) (x : A) :
    (EventBus.publish b t x).1 = b := by
  cases h : EventBus.find b t <;> simp [EventBus.publish, h]

/-- A topic that is absent and is never subscribed to stays absent through
any sequence of bus calls: subscribe to other topics only touches those
map entries, and publish never inserts. -/
theorem runB_preserves_absent (topic : String) :
    ∀ (ops : List (BusOp A E)) (b : EventBus A E),
      (∀ cb, BusOp.bsub topic cb ∉ ops) →
      EventBus.find b topic = none →
      EventBus.find (EventBus.runB b ops) topic = none
  | [], b => fun _ habs => habs
  | .bsub t cb :: ops, b => fun hnever habs => by
      have hne : t ≠ topic := by
        intro h
        subst h
        exact hnever cb (List.mem_cons_self _ _)
      rw [EventBus.runB]
      refine runB_preserves_absent topic ops _ ?_ ?_
      · intro cb' hmem
        exact hnever cb' (List.mem_cons_of_mem _ hmem)
      · have : (EventBus.subscribe b t cb).1.channels_ =
            setChannel b.channels_ t (Event.subscribeS
              (match EventBus.find b t with
               | some c => c
               | none => Event.init) cb).1 := rfl
        show findTopic (EventBus.subscribe b t cb).1.channels_ topic = none
        rw [this, findTopic_setChannel_ne topic t _ hne]
        exact habs
  | .bpub t x :: ops, b => fun hnever habs => by
      rw [EventBus.runB, bus_publish_fst]
      refine runB_preserves_absent topic ops b ?_ habs
      intro cb' hmem
      exact hnever cb' (List.mem_cons_of_mem _ hmem)

/-- C9: publishing on a topic that was never subscribed to is a silent
no-op — over any sequence of bus calls starting from a fresh bus none of
which subscribes to the topic, the topic has no channel, and publishing to
it invokes no callback (empty trace) and leaves the bus exactly as it is
(no channel gets created); likewise publishing to an existing but empty
channel invokes no callback and leaves the bus unchanged. -/
theorem publish_unknown_topic_is_noop (ops : List (BusOp A E)) (topic : String)
    (x : A) (b : EventBus A E) (ch : Event A E)
    (hnever : ∀ cb, BusOp.bsub topic cb ∉ ops)
    (hfind : EventBus.find b topic = some ch)
    (hempty : ch.slots_ = []) :
    EventBus.find (EventBus.runB EventBus.empty ops) topic = none ∧
    EventBus.publish (EventBus.runB EventBus.empty ops) topic x =
      (EventBus.runB EventBus.empty ops, []) ∧
    EventBus.publish b topic x = (b, []) := by
  have habsent : EventBus.find (EventBus.runB EventBus.empty ops) topic = none :=
    runB_preserves_absent topic ops EventBus.empty hnever rfl
  refine ⟨habsent, ?_, ?_⟩
  · simp [EventBus.publish, habsent]
  · have htrace : (Event.publish ch x).2 = [] := by
      show publishLoop x ch.slots_ = []
      rw [hempty]
      rfl
    simp [EventBus.publish, hfind, htrace]

/-- Witness for C9: a bus that only ever published to topic "t" has no
channel for it, and publishing to a bus whose "t" channel exists but is
empty is equally a no-op. -/
theorem publish_unknown_topic_is_noop_witness :
    EventBus.find (EventBus.runB (EventBus.empty (A := Nat) (E := Nat))
      [BusOp.bpub "t" 0]) "t" = none ∧
    EventBus.publish (EventBus.runB (EventBus.empty (A := Nat) (E := Nat))
        [BusOp.bpub "t" 0]) "t" 0 =
      (EventBus.runB (EventBus.empty (A := Nat) (E := Nat)) [BusOp.bpub "t" 0], []) ∧
    EventBus.publish (A := Nat) (E := Nat) ⟨[("t", Event.init)]⟩ "t" 0 =
      (⟨[("t", Event.init)]⟩, []) :=
  publish_unknown_topic_is_noop [BusOp.bpub "t" 0] "t" 0
    ⟨[("t", Event.init)]⟩ Event.init
    (by intro cb h; simp at h) rfl rfl

end Stel
